import Mathlib

/-!
Verification of the Order Lifecycle & Assignment Engine of the jewelry-workshop
repository (src/database.py, src/models.py, src/main.py).

The Python record store (PostgreSQL behind `Database.execute_query`) is modelled
as an in-memory record store `DB`: one list per table, kept in insertion order,
plus the SERIAL counters used for `INSERT ... RETURNING id`.  SQL `UPDATE ...
WHERE id = %s` becomes a map over the list, `SELECT ... WHERE` becomes
`List.find?` / `List.filter`, and `ORDER BY` becomes a stable insertion sort.
A store write always succeeds in the model (the source treats a failed write as
a `False` result; that branch is kept where the source checks it).

Statuses are plain strings exactly as in the source ('new', 'assigned',
'in_progress', 'completed', 'cancelled' are the literals that occur).

Where the Python code would raise an unhandled exception (attribute access on
`None`), the model returns `none`; where the source deliberately raises
`ValueError`, the model returns `Except.error` with the source's message.
-/

namespace Jewelry

/-- Row of the `client` table (src/models.py, class Client). -/
structure Client where
  id : Option Nat
  name : String
  surname : String
  phone_number : String
  email : Option String
deriving DecidableEq

/-- Row of the `master` table (src/models.py, class Master).  `current_orders`
is an `Int`: neither the column nor the Python code constrains it to be
non-negative. -/
structure Master where
  id : Option Nat
  name : String
  surname : String
  patronymic : Option String
  phone_number : String
  email : Option String
  is_available : Bool
  current_orders : Int
deriving DecidableEq

/-- Row of the `order_table` table (src/models.py, class Order).  `data` is the
creation date, kept as an opaque string. -/
structure Order where
  id : Option Nat
  client_id : Option Nat
  data : String
  status : String
deriving DecidableEq

/-- Row of the `order_item` table (src/models.py, class OrderItem). -/
structure OrderItem where
  id : Option Nat
  order_id : Option Nat
  product_id : Option Nat
  inform : Option String
deriving DecidableEq

/-- Row of the `work_order` table (src/models.py, class WorkOrder). -/
structure WorkOrder where
  id : Option Nat
  order_id : Option Nat
  master_id : Option Nat
  data : String
deriving DecidableEq

/-- The record store: one list per table in insertion order, plus the SERIAL
counters. -/
structure DB where
  clients : List Client
  masters : List Master
  orders : List Order
  order_items : List OrderItem
  work_orders : List WorkOrder
  next_client_id : Nat
  next_master_id : Nat
  next_order_id : Nat
  next_order_item_id : Nat
  next_work_order_id : Nat
deriving DecidableEq

/-- Client.save (src/models.py 962-985): UPDATE when the object has an id,
INSERT RETURNING id otherwise. -/
def Client.save (db : DB) (c : Client) : DB × Client × Bool :=
  match c.id with
  | some _ =>
      ({ db with clients := db.clients.map (fun x => if x.id == c.id then c else x) }, c, true)
  | none =>
      let c' := { c with id := some db.next_client_id }
      ({ db with clients := db.clients ++ [c'],
                 next_client_id := db.next_client_id + 1 }, c', true)

/-- Client.get_by_id (src/models.py 987-995): SELECT * FROM client WHERE id = %s,
first row. -/
def Client.get_by_id (db : DB) (cid : Nat) : Option Client :=
  db.clients.find? (fun c => c.id == some cid)

/-- Client.get_by_phone (src/models.py 997-1005): SELECT * FROM client WHERE
phone_number = %s, first row. -/
def Client.get_by_phone (db : DB) (phone : String) : Option Client :=
  db.clients.find? (fun c => c.phone_number == phone)

/-- Master.save (src/models.py 1042-1068). -/
def Master.save (db : DB) (m : Master) : DB × Master × Bool :=
  match m.id with
  | some _ =>
      ({ db with masters := db.masters.map (fun x => if x.id == m.id then m else x) }, m, true)
  | none =>
      let m' := { m with id := some db.next_master_id }
      ({ db with masters := db.masters ++ [m'],
                 next_master_id := db.next_master_id + 1 }, m', true)

/-- Master.get_by_id (src/models.py 1070-1078). -/
def Master.get_by_id (db : DB) (mid : Nat) : Option Master :=
  db.masters.find? (fun m => m.id == some mid)

/-- Stable insertion step for ORDER BY current_orders. -/
def insertByLoad (m : Master) : List Master → List Master
  | [] => [m]
  | x :: xs =>
      if m.current_orders ≤ x.current_orders then m :: x :: xs
      else x :: insertByLoad m xs

/-- Stable sort by ascending `current_orders` (elements retrieved earlier stay
first on ties). -/
def sortByLoad : List Master → List Master
  | [] => []
  | x :: xs => insertByLoad x (sortByLoad xs)

/-- Master.get_available_masters (src/models.py 1080-1086):
SELECT * FROM master WHERE is_available = TRUE ORDER BY current_orders. -/
def Master.get_available_masters (db : DB) : List Master :=
  sortByLoad (db.masters.filter (fun m => m.is_available))

/-- Master.update_availability (src/models.py 1096-1099): sets
`is_available = current_orders < 3` and saves. -/
def Master.update_availability (db : DB) (m : Master) : DB × Master × Bool :=
  Master.save db { m with is_available := decide (m.current_orders < 3) }

/-- Order.save (src/models.py 1199-1222). -/
def Order.save (db : DB) (o : Order) : DB × Order × Bool :=
  match o.id with
  | some _ =>
      ({ db with orders := db.orders.map (fun x => if x.id == o.id then o else x) }, o, true)
  | none =>
      let o' := { o with id := some db.next_order_id }
      ({ db with orders := db.orders ++ [o'],
                 next_order_id := db.next_order_id + 1 }, o', true)

/-- Order.get_by_id (src/models.py 1224-1232). -/
def Order.get_by_id (db : DB) (oid : Nat) : Option Order :=
  db.orders.find? (fun o => o.id == some oid)

/-- Stable insertion step for ORDER BY id (a row's SERIAL id is never NULL; the
`getD 0` default is dead in reachable stores). -/
def insertById (o : Order) : List Order → List Order
  | [] => [o]
  | x :: xs =>
      if o.id.getD 0 ≤ x.id.getD 0 then o :: x :: xs
      else x :: insertById o xs

/-- Stable sort by ascending id. -/
def sortById : List Order → List Order
  | [] => []
  | x :: xs => insertById x (sortById xs)

/-- Order.get_by_status (src/models.py 1234-1240):
SELECT * FROM order_table WHERE status = %s ORDER BY id. -/
def Order.get_by_status (db : DB) (s : String) : List Order :=
  sortById (db.orders.filter (fun o => o.status == s))

/-- Order.get_client (src/models.py 1250-1252): the owning client, `none` when
`client_id` is NULL or unresolved. -/
def Order.get_client (db : DB) (o : Order) : Option Client :=
  match o.client_id with
  | some cid => Client.get_by_id db cid
  | none => none

/-- OrderItem.save (src/models.py 1284-1307). -/
def OrderItem.save (db : DB) (i : OrderItem) : DB × OrderItem × Bool :=
  match i.id with
  | some _ =>
      ({ db with order_items := db.order_items.map (fun x => if x.id == i.id then i else x) }, i, true)
  | none =>
      let i' := { i with id := some db.next_order_item_id }
      ({ db with order_items := db.order_items ++ [i'],
                 next_order_item_id := db.next_order_item_id + 1 }, i', true)

/-- WorkOrder.save (src/models.py 1347-1370). -/
def WorkOrder.save (db : DB) (w : WorkOrder) : DB × WorkOrder × Bool :=
  match w.id with
  | some _ =>
      ({ db with work_orders := db.work_orders.map (fun x => if x.id == w.id then w else x) }, w, true)
  | none =>
      let w' := { w with id := some db.next_work_order_id }
      ({ db with work_orders := db.work_orders ++ [w'],
                 next_work_order_id := db.next_work_order_id + 1 }, w', true)

/-- WorkOrder.get_by_order_id (src/models.py 1372-1380). -/
def WorkOrder.get_by_order_id (db : DB) (oid : Nat) : Option WorkOrder :=
  db.work_orders.find? (fun w => w.order_id == some oid)

/-- Observable side effects emitted by the lifecycle operations: the facade
logger line and the calls into the NotificationService. -/
inductive Event where
  | logStatusChange (order_id : Nat) (old_status new_status : String)
  | notifyMasterAssigned (order_id : Nat) (master_id : Option Nat)
  | notifyOrderReady (order_id : Option Nat)
deriving DecidableEq

/-- OrderManagementFacade.change_order_status (src/models.py 337-356): looks the
order up, overwrites its status with the requested value, saves, and on success
logs the `old -> new` line.  No transition validation of any kind is performed
and the NotificationService is never called. -/
def change_order_status (db : DB) (order_id : Nat) (new_status : String) :
    DB × Bool × List Event :=
  match Order.get_by_id db order_id with
  | none => (db, false, [])
  | some order =>
      let old_status := order.status
      let (db', _, success) := Order.save db { order with status := new_status }
      if success then
        (db', true, [Event.logStatusChange order_id old_status new_status])
      else
        (db', false, [])

/-- assign_order_to_master (src/main.py 307-340): takes the head of
get_available_masters, inserts a WorkOrder, sets the order's status to
'assigned', increments the master's load and recomputes availability, then
notifies.  Returns `none` where the Python code would raise (the order id or
its client does not resolve after a master was selected). -/
def assign_order_to_master (db : DB) (order_id : Nat) :
    Option (DB × Bool × List Event) :=
  match Master.get_available_masters db with
  | [] => some (db, false, [])
  | master :: _ =>
      let wo : WorkOrder := { id := none, order_id := some order_id,
                              master_id := master.id, data := "" }
      let (db1, _, ok) := WorkOrder.save db wo
      if ok then
        match Order.get_by_id db1 order_id with
        | none => none
        | some order =>
            let order1 := { order with status := "assigned" }
            let (db2, _, _) := Order.save db1 order1
            let master1 := { master with current_orders := master.current_orders + 1 }
            let (db3, _, _) := Master.update_availability db2 master1
            match Order.get_client db3 order1 with
            | none => none
            | some _client =>
                some (db3, true, [Event.notifyMasterAssigned order_id master.id])
      else some (db, false, [])

/-- The re-queue loop of the master panel (src/main.py 441-444): try
assign_order_to_master on each pending order, stop at the first success.  Rows
loaded from the store always carry an id; a NULL id is treated as the
lookup-failure crash it would become in Python. -/
def requeue_scan (db : DB) : List Order → Option (DB × List Event)
  | [] => some (db, [])
  | p :: rest =>
      match p.id with
      | none => none
      | some pid =>
          match assign_order_to_master db pid with
          | none => none
          | some (db', assigned, ev) =>
              if assigned then some (db', ev)
              else
                match requeue_scan db' rest with
                | none => none
                | some (db'', ev') => some (db'', ev ++ ev')

/-- The completion flow of the master panel (src/main.py 421-453, menu choice
2), with `master` the panel's fetched master object.  Sets the status to
'completed' unconditionally (no check of the current status), decrements the
master's load without a clamp, recomputes availability, sends the order-ready
notification and runs the re-queue scan over the pending 'new' orders.  The
returned Bool is whether the completion path ran (false is the
`not found / not yours` warning).  `none` marks a Python crash (missing order
row or client). -/
def master_complete_order (db : DB) (master : Master) (order_id : Nat) :
    Option (DB × Bool × List Event) :=
  match WorkOrder.get_by_order_id db order_id with
  | none => some (db, false, [])
  | some wo =>
      if wo.master_id == master.id then
        match Order.get_by_id db order_id with
        | none => none
        | some order =>
            let order1 := { order with status := "completed" }
            let (db1, _, ok) := Order.save db order1
            if ok then
              let master1 := { master with current_orders := master.current_orders - 1 }
              let (db2, _, _) := Master.update_availability db1 master1
              match Order.get_client db2 order1 with
              | none => none
              | some _client =>
                  match requeue_scan db2 (Order.get_by_status db2 "new") with
                  | none => none
                  | some (db3, ev) =>
                      some (db3, true, Event.notifyOrderReady order1.id :: ev)
            else some (db1, false, [])
      else some (db, false, [])

/-- State of an OrderBuilder (src/models.py 77-210) as set up by its fluent
methods. -/
structure BuilderState where
  order : Option Order
  client : Option Client
  order_items : List OrderItem
  work_order : Option WorkOrder
deriving DecidableEq

/-- OrderBuilder.assign_master (src/models.py 140-154).  `ValueError` is
modelled as `Except.error` with the source's message.  (Python's `if master_id:`
also treats 0 as absent; SERIAL ids start at 1, so `Option` captures it.) -/
def OrderBuilder.assign_master (db : DB) (b : BuilderState)
    (master_id : Option Nat) : Except String BuilderState :=
  match master_id with
  | some mid =>
      match Master.get_by_id db mid with
      | none => .error ("Мастер с ID " ++ toString mid ++ " не найден")
      | some master =>
          let wo : WorkOrder := { id := none, order_id := none, master_id := master.id, data := "" }
          .ok { b with work_order := some wo }
  | none =>
      match Master.get_available_masters db with
      | [] => .error "Нет доступных мастеров"
      | master :: _ =>
          let wo : WorkOrder := { id := none, order_id := none, master_id := master.id, data := "" }
          .ok { b with work_order := some wo }

/-- The item-saving loop of OrderBuilder.build (src/models.py 188-190). -/
def saveItems (db : DB) (oid : Option Nat) : List OrderItem → DB × List OrderItem
  | [] => (db, [])
  | i :: rest =>
      let (db', i', _) := OrderItem.save db { i with order_id := oid }
      let (db'', rest') := saveItems db' oid rest
      (db'', i' :: rest')

/-- The work-order stage of OrderBuilder.build (src/models.py 192-201): save
the prepared work order with the order's id, then bump the master's counter
and recompute availability when the master resolves. -/
def saveWorkOrderStage (db : DB) (oid : Option Nat) :
    Option WorkOrder → DB × Option WorkOrder
  | none => (db, none)
  | some wo =>
      let (db', wo', _) := WorkOrder.save db { wo with order_id := oid }
      let db'' :=
        match wo'.master_id with
        | none => db'
        | some mid =>
            match Master.get_by_id db' mid with
            | none => db'
            | some master =>
                (Master.update_availability db'
                  { master with current_orders := master.current_orders + 1 }).1
      (db'', some wo')

/-- What OrderBuilder.build returns (src/models.py 203-210). -/
structure BuildResult where
  order : Order
  client : Client
  items : List OrderItem
  work_order : Option WorkOrder
deriving DecidableEq

/-- OrderBuilder.build (src/models.py 163-210): requires a client and at least
one item; a new client (no id) is replaced by the store's client with the same
phone number when one exists, and inserted otherwise; the order is created (or
the preset one adopted) with that client's id and saved; the items are saved
with the order's id; a prepared work order is saved and its master's load
incremented with availability recomputed. -/
def OrderBuilder.build (db : DB) (b : BuilderState) :
    Except String (DB × BuildResult) :=
  match b.client with
  | none => .error "Клиент не указан"
  | some client0 =>
      if b.order_items = [] then .error "Нет товаров в заказе"
      else
        let (db1, client1) :=
          match client0.id with
          | some _ => (db, client0)
          | none =>
              match Client.get_by_phone db client0.phone_number with
              | some existing => (db, existing)
              | none =>
                  let (db', c', _) := Client.save db client0
                  (db', c')
        let order0 : Order :=
          match b.order with
          | none => { id := none, client_id := client1.id, data := "", status := "new" }
          | some o => { o with client_id := client1.id }
        let (db2, order1, _) := Order.save db1 order0
        let (db3, items1) := saveItems db2 order1.id b.order_items
        let (db4, wo1) := saveWorkOrderStage db3 order1.id b.work_order
        .ok (db4, { order := order1, client := client1, items := items1, work_order := wo1 })

/-- Result dict appended per channel by NotificationService.send_notification
(src/models.py 805-822): either the adapter's returned dict or the error record
built in the except branch. -/
structure ChannelResult where
  service : String
  status : String
  error : Option String
deriving DecidableEq

/-- Outcome of one adapter.send call: a returned status, or a raised
exception.  The adapters and the external delivery services behind them are the
external Notification collaborator, so their behaviour is a parameter. -/
inductive ChannelOutcome where
  | ok (status : String)
  | exn (message : String)
deriving DecidableEq

/-- The keys of NotificationService.adapters (src/models.py 780-784). -/
def supportedChannels : List String := ["email", "sms", "telegram"]

/-- NotificationService.notification_rules (src/models.py 787-793), with the
dict's `.get(type, ['email'])` default. -/
def notification_rules (notification_type : String) : List String :=
  if notification_type == "order_created" then ["email", "sms"]
  else if notification_type == "order_ready" then ["sms", "telegram"]
  else if notification_type == "master_assigned" then ["email"]
  else if notification_type == "status_changed" then ["email", "sms"]
  else if notification_type == "urgent" then ["sms", "telegram"]
  else ["email"]

/-- The per-channel body of the send loop (src/models.py 807-823): the
adapter's result, or the error record when `adapter.send` raises. -/
def channelResult (attempt : String → ChannelOutcome) (channel : String) :
    ChannelResult :=
  match attempt channel with
  | .ok st => { service := channel, status := st, error := none }
  | .exn e => { service := channel, status := "error", error := some e }

/-- The channel loop of NotificationService.send_notification (src/models.py
806-825): unsupported channels only print a warning and append nothing; a
raising channel appends its error record and the loop continues. -/
def sendLoop (attempt : String → ChannelOutcome) : List String → List ChannelResult
  | [] => []
  | ch :: rest =>
      if ch ∈ supportedChannels then channelResult attempt ch :: sendLoop attempt rest
      else sendLoop attempt rest

/-- NotificationService.send_notification (src/models.py 795-827): channels
default from the rules table by notification type; one result per supported
requested channel. -/
def send_notification (attempt : String → ChannelOutcome)
    (notification_type : String) (channels : Option (List String)) :
    List ChannelResult :=
  sendLoop attempt (channels.getD (notification_rules notification_type))

/-! Helper lemmas about the store primitives. -/

/-- Updating the row keyed `oid` and looking that key up afterwards yields the
updated row (every row with the key is replaced, so the first hit is the new
row). -/
lemma find?_map_update_eq {α : Type} (key : α → Option Nat) (o : α) (oid : Nat)
    (hk : key o = some oid) :
    ∀ (l : List α), (l.find? (fun x => key x == some oid)).isSome →
      (l.map (fun x => if key x == some oid then o else x)).find?
          (fun x => key x == some oid) = some o := by
  intro l
  induction l with
  | nil => intro h; simp [List.find?] at h
  | cons x xs ih =>
      intro h
      rw [List.map_cons]
      by_cases hx : key x = some oid
      · have hcond : (key x == some oid) = true := by rw [hx]; exact beq_self_eq_true _
        rw [if_pos hcond]
        have hpo : (key o == some oid) = true := by rw [hk]; exact beq_self_eq_true _
        exact List.find?_cons_of_pos _ hpo
      · have hxp : (key x == some oid) = false := beq_eq_false_iff_ne.mpr hx
        have hxp' : ¬ ((key x == some oid) = true) := by
          rw [hxp]; exact Bool.false_ne_true
        rw [if_neg hxp']
        rw [List.find?_cons_of_neg (p := fun y => key y == some oid) _ hxp'] at h
        rw [List.find?_cons_of_neg (p := fun y => key y == some oid) _ hxp']
        exact ih h

/-- Updating the row keyed `oid` does not change a lookup for a different key. -/
lemma find?_map_update_ne {α : Type} (key : α → Option Nat) (o : α) (oid qid : Nat)
    (hk : key o = some oid) (hne : qid ≠ oid) :
    ∀ (l : List α),
      (l.map (fun x => if key x == some oid then o else x)).find?
          (fun x => key x == some qid) = l.find? (fun x => key x == some qid) := by
  intro l
  induction l with
  | nil => simp
  | cons x xs ih =>
      rw [List.map_cons]
      by_cases hx : key x = some oid
      · have hcond : (key x == some oid) = true := by rw [hx]; exact beq_self_eq_true _
        rw [if_pos hcond]
        have hone : key o ≠ some qid := by
          rw [hk]; intro hcontra
          exact hne (Option.some_injective _ hcontra).symm
        have hxne : key x ≠ some qid := by
          rw [hx]; intro hcontra
          exact hne (Option.some_injective _ hcontra).symm
        have hoq : ¬ ((key o == some qid) = true) := by
          rw [beq_eq_false_iff_ne.mpr hone]; exact Bool.false_ne_true
        have hxq : ¬ ((key x == some qid) = true) := by
          rw [beq_eq_false_iff_ne.mpr hxne]; exact Bool.false_ne_true
        rw [List.find?_cons_of_neg (p := fun y => key y == some qid) _ hoq,
            List.find?_cons_of_neg (p := fun y => key y == some qid) _ hxq]
        exact ih
      · have hcond : ¬ ((key x == some oid) = true) := by
          rw [beq_eq_false_iff_ne.mpr hx]; exact Bool.false_ne_true
        rw [if_neg hcond]
        cases hq : (key x == some qid) with
        | true =>
            rw [List.find?_cons_of_pos (p := fun y => key y == some qid) _ hq,
                List.find?_cons_of_pos (p := fun y => key y == some qid) _ hq]
        | false =>
            have hq' : ¬ ((key x == some qid) = true) := by
              rw [hq]; exact Bool.false_ne_true
            rw [List.find?_cons_of_neg (p := fun y => key y == some qid) _ hq',
                List.find?_cons_of_neg (p := fun y => key y == some qid) _ hq']
            exact ih

/-- Membership is preserved by the insertion step of the load sort. -/
lemma mem_insertByLoad {y m : Master} :
    ∀ {l : List Master}, y ∈ insertByLoad m l ↔ y = m ∨ y ∈ l := by
  intro l
  induction l with
  | nil => simp [insertByLoad]
  | cons x xs ih =>
      simp only [insertByLoad]
      split
      · simp [or_comm, or_assoc, or_left_comm]
      · simp [ih]; tauto

/-- Membership is preserved by the load sort. -/
lemma mem_sortByLoad {y : Master} :
    ∀ {l : List Master}, y ∈ sortByLoad l ↔ y ∈ l := by
  intro l
  induction l with
  | nil => simp [sortByLoad]
  | cons x xs ih => simp [sortByLoad, mem_insertByLoad, ih]

/-- The insertion step keeps the list sorted by load. -/
lemma pairwise_insertByLoad {m : Master} :
    ∀ {l : List Master},
      l.Pairwise (fun a b => a.current_orders ≤ b.current_orders) →
      (insertByLoad m l).Pairwise (fun a b => a.current_orders ≤ b.current_orders) := by
  intro l
  induction l with
  | nil => intro _; simp [insertByLoad]
  | cons x xs ih =>
      intro h
      rw [List.pairwise_cons] at h
      simp only [insertByLoad]
      split
      · rename_i hle
        rw [List.pairwise_cons]
        refine ⟨?_, List.pairwise_cons.mpr h⟩
        intro y hy
        rcases List.mem_cons.mp hy with rfl | hy'
        · exact hle
        · exact le_trans hle (h.1 y hy')
      · rename_i hgt
        rw [List.pairwise_cons]
        refine ⟨?_, ih h.2⟩
        intro y hy
        rcases mem_insertByLoad.mp hy with rfl | hy'
        · omega
        · exact h.1 y hy'

/-- The load sort sorts by load. -/
lemma pairwise_sortByLoad :
    ∀ (l : List Master),
      (sortByLoad l).Pairwise (fun a b => a.current_orders ≤ b.current_orders)
  | [] => by simp [sortByLoad]
  | x :: xs => by
      simp only [sortByLoad]
      exact pairwise_insertByLoad (pairwise_sortByLoad xs)

/-- The head of the load sort has minimal load. -/
lemma head_min_of_sortByLoad {l t : List Master} {m : Master}
    (h : sortByLoad l = m :: t) :
    ∀ y ∈ l, m.current_orders ≤ y.current_orders := by
  intro y hy
  have hmem : y ∈ m :: t := by rw [← h]; exact mem_sortByLoad.mpr hy
  have hpw := pairwise_sortByLoad l
  rw [h, List.pairwise_cons] at hpw
  rcases List.mem_cons.mp hmem with rfl | hy'
  · exact le_refl _
  · exact hpw.1 y hy'

/-- The head of get_available_masters is an available master of the store. -/
lemma head_of_available {db : DB} {m : Master} {ms : List Master}
    (h : Master.get_available_masters db = m :: ms) :
    m.is_available = true ∧ m ∈ db.masters := by
  unfold Master.get_available_masters at h
  have hmem : m ∈ sortByLoad (db.masters.filter (fun x => x.is_available)) := by
    rw [h]; exact List.mem_cons_self m ms
  have hmem' := mem_sortByLoad.mp hmem
  have := List.mem_filter.mp hmem'
  exact ⟨this.2, this.1⟩

/-- The head of get_available_masters has the lowest load among available
masters. -/
lemma head_min_of_available {db : DB} {m : Master} {ms : List Master}
    (h : Master.get_available_masters db = m :: ms) :
    ∀ y ∈ db.masters, y.is_available = true → m.current_orders ≤ y.current_orders := by
  unfold Master.get_available_masters at h
  intro y hy hav
  exact head_min_of_sortByLoad h y (List.mem_filter.mpr ⟨hy, hav⟩)

/-- A store holding an available master has a non-empty available list. -/
lemma available_ne_nil_of_mem {db : DB} {m : Master}
    (hm : m ∈ db.masters) (ha : m.is_available = true) :
    Master.get_available_masters db ≠ [] := by
  intro h
  unfold Master.get_available_masters at h
  have hmem : m ∈ sortByLoad (db.masters.filter (fun x => x.is_available)) :=
    mem_sortByLoad.mpr (List.mem_filter.mpr ⟨hm, ha⟩)
  rw [h] at hmem
  exact List.not_mem_nil m hmem

/-- A filter by status is unchanged when the updated row's old and new statuses
both differ from the filtered one. -/
lemma filter_status_map_update {o' : Order} {s : String} {oid : Nat}
    (h1 : o'.status ≠ s) :
    ∀ {l : List Order}, (∀ x ∈ l, x.id = some oid → x.status ≠ s) →
      (l.map (fun x => if x.id == some oid then o' else x)).filter
          (fun x => x.status == s) = l.filter (fun x => x.status == s) := by
  intro l
  induction l with
  | nil => simp
  | cons x xs ih =>
      intro h2
      have hxs : ∀ x ∈ xs, x.id = some oid → x.status ≠ s := by
        intro z hz; exact h2 z (List.mem_cons_of_mem x hz)
      rw [List.map_cons]
      by_cases hx : x.id = some oid
      · have hcond : (x.id == some oid) = true := by rw [hx]; exact beq_self_eq_true _
        rw [if_pos hcond]
        have hxst : x.status ≠ s := h2 x (List.mem_cons_self x xs) hx
        have ho's : ¬ ((o'.status == s) = true) := by
          rw [beq_eq_false_iff_ne.mpr h1]; exact Bool.false_ne_true
        have hxss : ¬ ((x.status == s) = true) := by
          rw [beq_eq_false_iff_ne.mpr hxst]; exact Bool.false_ne_true
        rw [List.filter_cons_of_neg (p := fun (y : Order) => y.status == s) ho's,
            List.filter_cons_of_neg (p := fun (y : Order) => y.status == s) hxss]
        exact ih hxs
      · have hcond : ¬ ((x.id == some oid) = true) := by
          rw [beq_eq_false_iff_ne.mpr hx]; exact Bool.false_ne_true
        rw [if_neg hcond]
        cases hst : (x.status == s) with
        | true =>
            rw [List.filter_cons_of_pos (p := fun (y : Order) => y.status == s) hst,
                List.filter_cons_of_pos (p := fun (y : Order) => y.status == s) hst, ih hxs]
        | false =>
            have hst' : ¬ ((x.status == s) = true) := by
              rw [hst]; exact Bool.false_ne_true
            rw [List.filter_cons_of_neg (p := fun (y : Order) => y.status == s) hst',
                List.filter_cons_of_neg (p := fun (y : Order) => y.status == s) hst']
            exact ih hxs

/-! Projection lemmas: each save touches only its own table. -/

@[simp] lemma order_save_clients (db : DB) (o : Order) :
    (Order.save db o).1.clients = db.clients := by
  cases h : o.id <;> simp [Order.save, h]

@[simp] lemma order_save_masters (db : DB) (o : Order) :
    (Order.save db o).1.masters = db.masters := by
  cases h : o.id <;> simp [Order.save, h]

@[simp] lemma order_save_work_orders (db : DB) (o : Order) :
    (Order.save db o).1.work_orders = db.work_orders := by
  cases h : o.id <;> simp [Order.save, h]

@[simp] lemma master_save_clients (db : DB) (m : Master) :
    (Master.save db m).1.clients = db.clients := by
  cases h : m.id <;> simp [Master.save, h]

@[simp] lemma master_save_orders (db : DB) (m : Master) :
    (Master.save db m).1.orders = db.orders := by
  cases h : m.id <;> simp [Master.save, h]

@[simp] lemma master_save_work_orders (db : DB) (m : Master) :
    (Master.save db m).1.work_orders = db.work_orders := by
  cases h : m.id <;> simp [Master.save, h]

@[simp] lemma work_order_save_clients (db : DB) (w : WorkOrder) :
    (WorkOrder.save db w).1.clients = db.clients := by
  cases h : w.id <;> simp [WorkOrder.save, h]

@[simp] lemma work_order_save_orders (db : DB) (w : WorkOrder) :
    (WorkOrder.save db w).1.orders = db.orders := by
  cases h : w.id <;> simp [WorkOrder.save, h]

@[simp] lemma work_order_save_masters (db : DB) (w : WorkOrder) :
    (WorkOrder.save db w).1.masters = db.masters := by
  cases h : w.id <;> simp [WorkOrder.save, h]

@[simp] lemma order_item_save_clients (db : DB) (i : OrderItem) :
    (OrderItem.save db i).1.clients = db.clients := by
  cases h : i.id <;> simp [OrderItem.save, h]

@[simp] lemma saveItems_clients (oid : Option Nat) :
    ∀ (l : List OrderItem) (db : DB), (saveItems db oid l).1.clients = db.clients := by
  intro l
  induction l with
  | nil => intro db; rfl
  | cons i rest ih => intro db; simp [saveItems, ih]

/-- The successful branch of change_order_status in closed form. -/
lemma change_order_status_found {db : DB} {oid : Nat} {order : Order} (s : String)
    (h : Order.get_by_id db oid = some order) :
    change_order_status db oid s =
      ({ db with orders := db.orders.map
                   (fun x => if x.id == some oid then { order with status := s } else x) },
       true, [Event.logStatusChange oid order.status s]) := by
  have hid : order.id = some oid := by
    have h2 := List.find?_some h
    exact eq_of_beq h2
  unfold change_order_status
  rw [h]
  unfold Order.save
  dsimp only
  rw [hid]
  dsimp only
  rw [if_pos rfl]

/-! Concrete store fixtures for the closed theorems. -/

/-- A concrete client row. -/
def sampleClient : Client :=
  { id := some 1, name := "Anna", surname := "Smirnova",
    phone_number := "+79160000001", email := none }

/-- A concrete master row with the given availability flag and load. -/
def sampleMaster (avail : Bool) (load : Int) : Master :=
  { id := some 1, name := "Ivan", surname := "Petrov", patronymic := none,
    phone_number := "+79161111111", email := none,
    is_available := avail, current_orders := load }

/-- A concrete order row owned by the sample client. -/
def sampleOrder (i : Nat) (s : String) : Order :=
  { id := some i, client_id := some 1, data := "2024-01-01", status := s }

/-- A concrete work order linking order 1 to master 1. -/
def sampleWorkOrder : WorkOrder :=
  { id := some 1, order_id := some 1, master_id := some 1, data := "2024-01-01" }

/-- A concrete store with the sample client and the given masters, orders and
work orders. -/
def sampleDB (ms : List Master) (os : List Order) (ws : List WorkOrder) : DB :=
  { clients := [sampleClient], masters := ms, orders := os, order_items := [],
    work_orders := ws, next_client_id := 2, next_master_id := 2,
    next_order_id := 10, next_order_item_id := 1, next_work_order_id := 10 }

/-! Claim C1: legal transition edges. -/

/-- Claim C1 counterexample: the edge completed -> new is not in the legal set
of section 4.1, yet change_order_status stores it and reports success, so the
status does not stay unchanged on an illegal edge. -/
theorem C1_counterexample :
    (change_order_status (sampleDB [] [sampleOrder 1 "completed"] []) 1 "new").1.orders
        = [sampleOrder 1 "new"] ∧
      (change_order_status (sampleDB [] [sampleOrder 1 "completed"] []) 1 "new").2.1 = true ∧
      "new" ≠ "completed" := by
  refine ⟨rfl, rfl, ?_⟩
  decide

/-- Claim C1 (amended): change_order_status applies no transition guard at all:
for any existing order and any requested status, including statuses outside the
legal edge set, the requested value is stored and success is reported. -/
theorem C1_no_transition_guard (db : DB) (oid : Nat) (s : String) (order : Order)
    (h : Order.get_by_id db oid = some order) :
    (change_order_status db oid s).2.1 = true ∧
      Order.get_by_id (change_order_status db oid s).1 oid =
        some { order with status := s } := by
  have hid : order.id = some oid := by
    have h2 := List.find?_some h
    exact eq_of_beq h2
  rw [change_order_status_found s h]
  refine ⟨rfl, ?_⟩
  have hsome : (db.orders.find? (fun x => x.id == some oid)).isSome := by
    unfold Order.get_by_id at h
    rw [h]; rfl
  exact find?_map_update_eq Order.id { order with status := s } oid hid db.orders hsome

/-- Witness for C1_no_transition_guard at a concrete store. -/
theorem C1_no_transition_guard_witness :
    (change_order_status (sampleDB [] [sampleOrder 1 "completed"] []) 1 "cancelled").2.1 = true ∧
      Order.get_by_id
          (change_order_status (sampleDB [] [sampleOrder 1 "completed"] []) 1 "cancelled").1 1 =
        some (sampleOrder 1 "cancelled") :=
  C1_no_transition_guard (sampleDB [] [sampleOrder 1 "completed"] []) 1 "cancelled"
    (sampleOrder 1 "completed") (by rfl)

/-! Claim C2: notifier dispatch per status change. -/

/-- Claim C2 counterexample: a save that does not change the status (new -> new)
still emits one status-change dispatch, not zero. -/
theorem C2_counterexample :
    (change_order_status (sampleDB [] [sampleOrder 1 "new"] []) 1 "new").2.2 =
        [Event.logStatusChange 1 "new" "new"] ∧
      (change_order_status (sampleDB [] [sampleOrder 1 "new"] []) 1 "new").2.2.length = 1 := by
  exact ⟨rfl, rfl⟩

/-- Claim C2 (amended): every successful save by change_order_status on an
existing order emits exactly one dispatch carrying the triple
(order_id, old_status, new_status) — including when the old and new statuses
are equal; the NotificationService itself is never invoked by this operation
(the only event is the facade logger line). -/
theorem C2_exactly_one_log_dispatch (db : DB) (oid : Nat) (s : String) (order : Order)
    (h : Order.get_by_id db oid = some order) :
    (change_order_status db oid s).2.2 = [Event.logStatusChange oid order.status s] := by
  rw [change_order_status_found s h]

/-- Witness for C2_exactly_one_log_dispatch at a concrete store. -/
theorem C2_exactly_one_log_dispatch_witness :
    (change_order_status (sampleDB [] [sampleOrder 1 "new"] []) 1 "in_progress").2.2 =
      [Event.logStatusChange 1 "new" "in_progress"] :=
  C2_exactly_one_log_dispatch (sampleDB [] [sampleOrder 1 "new"] []) 1 "in_progress"
    (sampleOrder 1 "new") (by rfl)

/-! Claim C4: behaviour when no worker is available. -/

/-- Claim C4 counterexample: OrderBuilder.assign_master raises ValueError
(modelled as Except.error) when no master is available, so the no-worker
condition is not always reported as an explicit non-exceptional result value in
the lifecycle core. -/
theorem C4_counterexample :
    OrderBuilder.assign_master (sampleDB [sampleMaster false 3] [sampleOrder 1 "new"] [])
        { order := none, client := none, order_items := [], work_order := none } none =
      Except.error "Нет доступных мастеров" := by
  rfl

/-- Claim C4 (amended): with no available worker, assign_order_to_master leaves
the store untouched (the order keeps its 'new' status) and reports the deferred
outcome as the explicit value False with no events; the builder's
assign_master, however, raises ValueError for the same condition (its facade
callers catch it and convert it to a None result). -/
theorem C4_no_worker_queued (db : DB) (oid : Nat) (b : BuilderState)
    (h : Master.get_available_masters db = []) :
    assign_order_to_master db oid = some (db, false, []) ∧
      OrderBuilder.assign_master db b none = Except.error "Нет доступных мастеров" := by
  constructor
  · unfold assign_order_to_master
    rw [h]
  · unfold OrderBuilder.assign_master
    rw [h]

/-- Witness for C4_no_worker_queued at a concrete store whose only master is
unavailable at full load. -/
theorem C4_no_worker_queued_witness :
    assign_order_to_master (sampleDB [sampleMaster false 3] [sampleOrder 1 "new"] []) 1 =
        some (sampleDB [sampleMaster false 3] [sampleOrder 1 "new"] [], false, []) ∧
      OrderBuilder.assign_master (sampleDB [sampleMaster false 3] [sampleOrder 1 "new"] [])
          { order := some (sampleOrder 1 "new"), client := none, order_items := [],
            work_order := none } none =
        Except.error "Нет доступных мастеров" :=
  C4_no_worker_queued (sampleDB [sampleMaster false 3] [sampleOrder 1 "new"] []) 1
    { order := some (sampleOrder 1 "new"), client := none, order_items := [],
      work_order := none } (by rfl)

/-! Claim C9: notification fan-out is fire-and-continue. -/

/-- The service field of a per-channel result is the channel itself. -/
lemma channelResult_service (attempt : String → ChannelOutcome) (ch : String) :
    (channelResult attempt ch).service = ch := by
  unfold channelResult
  cases attempt ch <;> rfl

/-- The send loop produces exactly the per-channel results of the supported
requested channels, in order. -/
lemma sendLoop_eq (attempt : String → ChannelOutcome) :
    ∀ chs : List String,
      sendLoop attempt chs =
        (chs.filter (fun ch => decide (ch ∈ supportedChannels))).map
          (channelResult attempt) := by
  intro chs
  induction chs with
  | nil => rfl
  | cons ch rest ih =>
      unfold sendLoop
      by_cases h : ch ∈ supportedChannels
      · rw [if_pos h,
            List.filter_cons_of_pos (p := fun (c : String) => decide (c ∈ supportedChannels))
              (decide_eq_true h),
            List.map_cons, ih]
      · rw [if_neg h]
        have hfalse : ¬ ((decide (ch ∈ supportedChannels)) = true) := by
          simpa using h
        rw [List.filter_cons_of_neg (p := fun (c : String) => decide (c ∈ supportedChannels))
              hfalse, ih]

/-- Claim C9: send_notification yields exactly one per-channel result for every
supported requested channel, in request order; unsupported channels are
skipped; each result depends only on that channel's own adapter outcome, so a
raising channel is turned into an error record and does not stop or alter the
remaining channels. -/
theorem C9_fan_out_fire_and_continue (attempt : String → ChannelOutcome)
    (t : String) (chs : List String) :
    send_notification attempt t (some chs) =
        (chs.filter (fun ch => decide (ch ∈ supportedChannels))).map
          (channelResult attempt) ∧
      (send_notification attempt t (some chs)).map (fun r => r.service) =
        chs.filter (fun ch => decide (ch ∈ supportedChannels)) ∧
      ∀ r ∈ send_notification attempt t (some chs),
        (∃ st, attempt r.service = ChannelOutcome.ok st ∧
            r.status = st ∧ r.error = none) ∨
        (∃ e, attempt r.service = ChannelOutcome.exn e ∧
            r.status = "error" ∧ r.error = some e) := by
  have hmain : send_notification attempt t (some chs) =
      (chs.filter (fun ch => decide (ch ∈ supportedChannels))).map
        (channelResult attempt) := by
    unfold send_notification
    exact sendLoop_eq attempt chs
  refine ⟨hmain, ?_, ?_⟩
  · rw [hmain, List.map_map]
    have : ((fun r => ChannelResult.service r) ∘ channelResult attempt) = id := by
      funext ch
      exact channelResult_service attempt ch
    rw [this, List.map_id]
  · intro r hr
    rw [hmain] at hr
    rcases List.mem_map.mp hr with ⟨ch, _, rfl⟩
    rw [channelResult_service]
    cases hc : attempt ch with
    | ok st =>
        left
        refine ⟨st, rfl, ?_, ?_⟩ <;> simp [channelResult, hc]
    | exn e =>
        right
        refine ⟨e, rfl, ?_, ?_⟩ <;> simp [channelResult, hc]

/-! Closed forms of the assignment and completion flows. -/

/-- The store produced by a successful assign_order_to_master run: the new
work order row, the order driven to 'assigned', the selected master's load
incremented with availability recomputed. -/
def assignResult (db : DB) (oid : Nat) (m : Master) (order : Order) : DB :=
  { db with
      orders := db.orders.map
        (fun x => if x.id == some oid then { order with status := "assigned" } else x),
      masters := db.masters.map
        (fun x => if x.id == m.id then
            { m with current_orders := m.current_orders + 1,
                     is_available := decide (m.current_orders + 1 < 3) }
          else x),
      work_orders := db.work_orders ++
        [{ id := some db.next_work_order_id, order_id := some oid,
           master_id := m.id, data := "" }],
      next_work_order_id := db.next_work_order_id + 1 }

/-- assign_order_to_master in closed form when a master is available and the
order and its client resolve. -/
lemma assign_found {db : DB} {oid : Nat} {m : Master} {ms : List Master}
    {order : Order} {cid : Nat} {c : Client} {mid : Nat}
    (h1 : Master.get_available_masters db = m :: ms)
    (hmid : m.id = some mid)
    (h2 : Order.get_by_id db oid = some order)
    (h3 : order.client_id = some cid)
    (h4 : Client.get_by_id db cid = some c) :
    assign_order_to_master db oid =
      some (assignResult db oid m order, true, [Event.notifyMasterAssigned oid m.id]) := by
  unfold Order.get_by_id at h2
  unfold Client.get_by_id at h4
  have hb := List.find?_some h2
  have horder_id : order.id = some oid := by exact eq_of_beq hb
  unfold assign_order_to_master
  rw [h1]
  unfold WorkOrder.save
  simp only []
  simp only [Order.get_by_id, Order.save, Master.update_availability, Master.save,
             Order.get_client, Client.get_by_id, assignResult, horder_id, hmid,
             h2, h3, h4, if_true]

/-! Claim C3: what a successful assignment does. -/

/-- Claim C3 counterexample: a successful assignment drives the order to the
status 'assigned', not 'in_progress' as the claim states. -/
theorem C3_counterexample :
    ((assign_order_to_master (sampleDB [sampleMaster true 0] [sampleOrder 1 "new"] []) 1).map
        (fun r => Order.get_by_id r.1 1)) = some (some (sampleOrder 1 "assigned")) ∧
      "assigned" ≠ "in_progress" := by
  refine ⟨rfl, ?_⟩
  decide

/-- Claim C3 (amended): for an order in 'new' whose client resolves, a
successful assignment picks the head of get_available_masters — an available
master with the lowest load among all available masters (ties keep retrieval
order) — creates the WorkOrder row linking the order to that master,
increments that master's load by exactly one, recomputes its availability as
load < 3, and drives the order to status 'assigned' (not 'in_progress'),
notifying once. -/
theorem C3_lowest_load_assignment (db : DB) (oid mid cid : Nat) (m : Master)
    (ms : List Master) (order : Order) (c : Client)
    (h1 : Master.get_available_masters db = m :: ms)
    (hmid : m.id = some mid)
    (h2 : Order.get_by_id db oid = some order)
    (hstatus : order.status = "new")
    (h3 : order.client_id = some cid)
    (h4 : Client.get_by_id db cid = some c) :
    ∃ db', assign_order_to_master db oid =
        some (db', true, [Event.notifyMasterAssigned oid m.id]) ∧
      m.is_available = true ∧ m ∈ db.masters ∧
      (∀ y ∈ db.masters, y.is_available = true →
        m.current_orders ≤ y.current_orders) ∧
      Order.get_by_id db' oid = some { order with status := "assigned" } ∧
      Master.get_by_id db' mid =
        some { m with current_orders := m.current_orders + 1,
                      is_available := decide (m.current_orders + 1 < 3) } ∧
      db'.work_orders = db.work_orders ++
        [{ id := some db.next_work_order_id, order_id := some oid,
           master_id := m.id, data := "" }] := by
  have horder_id : order.id = some oid := by
    have h2' := h2
    unfold Order.get_by_id at h2'
    have hbeq := List.find?_some h2'
    exact eq_of_beq hbeq
  have hsome : (db.orders.find? (fun x => x.id == some oid)).isSome := by
    unfold Order.get_by_id at h2
    rw [h2]; rfl
  refine ⟨assignResult db oid m order, assign_found h1 hmid h2 h3 h4,
          (head_of_available h1).1, (head_of_available h1).2,
          head_min_of_available h1, ?_, ?_, rfl⟩
  · exact find?_map_update_eq Order.id { order with status := "assigned" } oid
      horder_id db.orders hsome
  · have hm2id : ({ m with current_orders := m.current_orders + 1, is_available := decide (m.current_orders + 1 < 3) } : Master).id = some mid := hmid
    have hmsome : (db.masters.find? (fun x => x.id == some mid)).isSome := by
      apply List.find?_isSome.mpr
      refine ⟨m, (head_of_available h1).2, ?_⟩
      rw [hmid]; exact beq_self_eq_true _
    have hupd := find?_map_update_eq Master.id ({ m with current_orders := m.current_orders + 1, is_available := decide (m.current_orders + 1 < 3) } : Master) mid hm2id db.masters hmsome
    unfold Master.get_by_id assignResult
    dsimp only
    rw [hmid]
    rw [hmid] at hupd
    exact hupd

/-- Witness for C3_lowest_load_assignment on a concrete one-master store. -/
theorem C3_lowest_load_assignment_witness :
    ∃ db', assign_order_to_master (sampleDB [sampleMaster true 0] [sampleOrder 1 "new"] []) 1 =
        some (db', true, [Event.notifyMasterAssigned 1 (sampleMaster true 0).id]) ∧
      (sampleMaster true 0).is_available = true ∧
      sampleMaster true 0 ∈ (sampleDB [sampleMaster true 0] [sampleOrder 1 "new"] []).masters ∧
      (∀ y ∈ (sampleDB [sampleMaster true 0] [sampleOrder 1 "new"] []).masters,
        y.is_available = true →
          (sampleMaster true 0).current_orders ≤ y.current_orders) ∧
      Order.get_by_id db' 1 = some { sampleOrder 1 "new" with status := "assigned" } ∧
      Master.get_by_id db' 1 =
        some { sampleMaster true 0 with
                 current_orders := (sampleMaster true 0).current_orders + 1,
                 is_available := decide ((sampleMaster true 0).current_orders + 1 < 3) } ∧
      db'.work_orders =
        (sampleDB [sampleMaster true 0] [sampleOrder 1 "new"] []).work_orders ++
          [{ id := some (sampleDB [sampleMaster true 0] [sampleOrder 1 "new"] []).next_work_order_id,
             order_id := some 1, master_id := (sampleMaster true 0).id, data := "" }] :=
  C3_lowest_load_assignment (sampleDB [sampleMaster true 0] [sampleOrder 1 "new"] [])
    1 1 1 (sampleMaster true 0) [] (sampleOrder 1 "new") sampleClient
    (by rfl) (by rfl) (by rfl) (by rfl) (by rfl) (by rfl)

/-! Completion flow in closed form. -/

/-- Membership is preserved by the insertion step of the id sort. -/
lemma mem_insertById {y o : Order} :
    ∀ {l : List Order}, y ∈ insertById o l ↔ y = o ∨ y ∈ l := by
  intro l
  induction l with
  | nil => simp [insertById]
  | cons x xs ih =>
      simp only [insertById]
      split
      · simp [or_comm, or_assoc, or_left_comm]
      · simp [ih]; tauto

/-- Membership is preserved by the id sort. -/
lemma mem_sortById {y : Order} :
    ∀ {l : List Order}, y ∈ sortById l ↔ y ∈ l := by
  intro l
  induction l with
  | nil => simp [sortById]
  | cons x xs ih => simp [sortById, mem_insertById, ih]

/-- A row of get_by_status is a store row with that status. -/
lemma mem_of_get_by_status {db : DB} {s : String} {y : Order}
    (h : y ∈ Order.get_by_status db s) : y ∈ db.orders ∧ y.status = s := by
  unfold Order.get_by_status at h
  have h2 := mem_sortById.mp h
  have h3 := List.mem_filter.mp h2
  exact ⟨h3.1, eq_of_beq h3.2⟩

/-- The store after the completion step of the master panel, before the
re-queue scan: the order stored as 'completed', the master's load decremented
by one (no clamp) with availability recomputed as load < 3. -/
def completeResult (db : DB) (master : Master) (mid : Nat) (order : Order) (oid : Nat) : DB :=
  { db with
      orders := db.orders.map
        (fun x => if x.id == some oid then { order with status := "completed" } else x),
      masters := db.masters.map
        (fun x => if x.id == some mid then
            { master with current_orders := master.current_orders - 1,
                          is_available := decide (master.current_orders - 1 < 3) }
          else x) }

/-- master_complete_order in closed form when the work order belongs to the
master and the order and its client resolve: the completion side effects of
completeResult happen, the order-ready notification is sent, and the re-queue
scan runs over the pending 'new' orders of the resulting store. -/
lemma master_complete_found {db : DB} {master : Master} {oid mid cid : Nat}
    {wo : WorkOrder} {order : Order} {c : Client}
    (hwo : WorkOrder.get_by_order_id db oid = some wo)
    (hwm : wo.master_id = master.id)
    (hmid : master.id = some mid)
    (h2 : Order.get_by_id db oid = some order)
    (h3 : order.client_id = some cid)
    (h4 : Client.get_by_id db cid = some c) :
    master_complete_order db master oid =
      (requeue_scan (completeResult db master mid order oid)
          (Order.get_by_status (completeResult db master mid order oid) "new")).map
        (fun r => (r.1, true, Event.notifyOrderReady order.id :: r.2)) := by
  have h2' := h2
  unfold Order.get_by_id at h2'
  have hb := List.find?_some h2'
  have horder_id : order.id = some oid := by exact eq_of_beq hb
  unfold Client.get_by_id at h4
  unfold master_complete_order
  rw [hwo]
  simp only []
  rw [hwm, hmid]
  rw [if_pos (beq_self_eq_true (some mid))]
  simp only [Order.get_by_id]
  rw [h2']
  simp only [Order.save, Master.update_availability, Master.save,
             Order.get_client, Client.get_by_id, completeResult,
             horder_id, hmid, h3, h4, if_true]
  split
  next heq => rw [heq]; rfl
  next db3 ev heq => rw [heq]; rfl

/-- The re-queue scan of an empty pending list changes nothing. -/
lemma requeue_scan_nil (db : DB) : requeue_scan db [] = some (db, []) := rfl

/-- The re-queue scan stops at the first pending order whose assignment
succeeds, leaving the rest of the list unvisited. -/
lemma requeue_scan_head_success {db : DB} {p1 : Order} {rest : List Order}
    {pid : Nat} {db' : DB} {ev : List Event}
    (hid : p1.id = some pid)
    (ha : assign_order_to_master db pid = some (db', true, ev)) :
    requeue_scan db (p1 :: rest) = some (db', ev) := by
  unfold requeue_scan
  rw [hid]
  simp only []
  rw [ha]
  rfl

/-- With no pending 'new' order, completing through the master panel produces
exactly the completion side effects and one order-ready notification. -/
lemma complete_no_pending {db : DB} {master : Master} {oid mid cid : Nat}
    {wo : WorkOrder} {order : Order} {c : Client}
    (hwo : WorkOrder.get_by_order_id db oid = some wo)
    (hwm : wo.master_id = master.id)
    (hmid : master.id = some mid)
    (h2 : Order.get_by_id db oid = some order)
    (h3 : order.client_id = some cid)
    (h4 : Client.get_by_id db cid = some c)
    (hnonew : ∀ o ∈ db.orders, o.status ≠ "new") :
    master_complete_order db master oid =
      some (completeResult db master mid order oid, true,
            [Event.notifyOrderReady order.id]) := by
  have hpend : Order.get_by_status (completeResult db master mid order oid) "new" = [] := by
    unfold Order.get_by_status completeResult
    dsimp only
    have hfil : (db.orders.map
        (fun x => if x.id == some oid then { order with status := "completed" } else x)).filter
          (fun o => o.status == "new") = [] := by
      apply List.filter_eq_nil_iff.mpr
      intro a ha
      rcases List.mem_map.mp ha with ⟨x, hx, rfl⟩
      by_cases hxid : (x.id == some oid) = true
      · rw [if_pos hxid]
        intro hh
        have hcontra : "completed" = "new" := eq_of_beq hh
        exact absurd hcontra (by decide)
      · rw [if_neg hxid]
        intro hh
        exact hnonew x hx (eq_of_beq hh)
    rw [hfil]
    rfl
  rw [master_complete_found hwo hwm hmid h2 h3 h4, hpend]
  rfl

/-- The master row stored by the completion step: load decremented by one with
availability recomputed. -/
lemma completeResult_master {db : DB} {master : Master} {mid oid : Nat} {order : Order}
    (hmid : master.id = some mid) (hmm : Master.get_by_id db mid = some master) :
    Master.get_by_id (completeResult db master mid order oid) mid =
      some { master with current_orders := master.current_orders - 1,
                         is_available := decide (master.current_orders - 1 < 3) } := by
  have hk : ({ master with current_orders := master.current_orders - 1, is_available := decide (master.current_orders - 1 < 3) } : Master).id = some mid := hmid
  have hs : (db.masters.find? (fun x => x.id == some mid)).isSome := by
    unfold Master.get_by_id at hmm
    rw [hmm]; rfl
  unfold Master.get_by_id completeResult
  dsimp only
  exact find?_map_update_eq Master.id _ mid hk db.masters hs

/-- The order row stored by the completion step: status set to 'completed'. -/
lemma completeResult_order {db : DB} {master : Master} {mid oid : Nat} {order : Order}
    (h2 : Order.get_by_id db oid = some order) :
    Order.get_by_id (completeResult db master mid order oid) oid =
      some { order with status := "completed" } := by
  have h2' := h2
  unfold Order.get_by_id at h2'
  have hb := List.find?_some h2'
  have hk : ({ order with status := "completed" } : Order).id = some oid := by exact eq_of_beq hb
  have hs : (db.orders.find? (fun x => x.id == some oid)).isSome := by
    rw [h2']; rfl
  unfold Order.get_by_id completeResult
  dsimp only
  exact find?_map_update_eq Order.id _ oid hk db.orders hs

/-! Claim C5: completing and cancelling an in_progress order. -/

/-- Claim C5 counterexample: cancelling an in_progress order (through the only
cancellation path in the source, the status facade) changes the status but
leaves every master row — the assigned worker's load and availability —
completely untouched, where the claim requires a decrement and recompute. -/
theorem C5_counterexample :
    (change_order_status
        (sampleDB [sampleMaster true 1] [sampleOrder 1 "in_progress"] [sampleWorkOrder])
        1 "cancelled").1.masters = [sampleMaster true 1] ∧
      (change_order_status
        (sampleDB [sampleMaster true 1] [sampleOrder 1 "in_progress"] [sampleWorkOrder])
        1 "cancelled").1.orders = [sampleOrder 1 "cancelled"] := by
  exact ⟨rfl, rfl⟩

/-- Claim C5 (amended): completing an in_progress order through the master
panel decrements the assigned worker's load by exactly one and recomputes its
availability as load < 3 (shown here with no pending 'new' order, so that the
re-queue scan adds nothing); cancelling through the status facade — the only
cancellation path in the source — changes neither the master rows nor the work
orders, so no load is released on cancellation. -/
theorem C5_complete_decrements (db : DB) (master : Master)
    (oid mid cid : Nat) (wo : WorkOrder) (order : Order) (c : Client)
    (hwo : WorkOrder.get_by_order_id db oid = some wo)
    (hwm : wo.master_id = master.id)
    (hmid : master.id = some mid)
    (hmm : Master.get_by_id db mid = some master)
    (h2 : Order.get_by_id db oid = some order)
    (hstatus : order.status = "in_progress")
    (h3 : order.client_id = some cid)
    (h4 : Client.get_by_id db cid = some c)
    (hnonew : ∀ o ∈ db.orders, o.status ≠ "new") :
    ∃ db', master_complete_order db master oid =
        some (db', true, [Event.notifyOrderReady order.id]) ∧
      Master.get_by_id db' mid =
        some { master with current_orders := master.current_orders - 1,
                           is_available := decide (master.current_orders - 1 < 3) } ∧
      Order.get_by_id db' oid = some { order with status := "completed" } ∧
      (change_order_status db oid "cancelled").1.masters = db.masters ∧
      (change_order_status db oid "cancelled").1.work_orders = db.work_orders := by
  refine ⟨completeResult db master mid order oid,
          complete_no_pending hwo hwm hmid h2 h3 h4 hnonew,
          completeResult_master hmid hmm,
          completeResult_order h2, ?_, ?_⟩
  · rw [change_order_status_found "cancelled" h2]
  · rw [change_order_status_found "cancelled" h2]

/-- Witness for C5_complete_decrements on a concrete store. -/
theorem C5_complete_decrements_witness :
    ∃ db', master_complete_order
        (sampleDB [sampleMaster true 1] [sampleOrder 1 "in_progress"] [sampleWorkOrder])
        (sampleMaster true 1) 1 =
        some (db', true, [Event.notifyOrderReady (sampleOrder 1 "in_progress").id]) ∧
      Master.get_by_id db' 1 =
        some { sampleMaster true 1 with
                 current_orders := (sampleMaster true 1).current_orders - 1,
                 is_available := decide ((sampleMaster true 1).current_orders - 1 < 3) } ∧
      Order.get_by_id db' 1 = some { sampleOrder 1 "in_progress" with status := "completed" } ∧
      (change_order_status
          (sampleDB [sampleMaster true 1] [sampleOrder 1 "in_progress"] [sampleWorkOrder])
          1 "cancelled").1.masters =
        (sampleDB [sampleMaster true 1] [sampleOrder 1 "in_progress"] [sampleWorkOrder]).masters ∧
      (change_order_status
          (sampleDB [sampleMaster true 1] [sampleOrder 1 "in_progress"] [sampleWorkOrder])
          1 "cancelled").1.work_orders =
        (sampleDB [sampleMaster true 1] [sampleOrder 1 "in_progress"] [sampleWorkOrder]).work_orders :=
  C5_complete_decrements
    (sampleDB [sampleMaster true 1] [sampleOrder 1 "in_progress"] [sampleWorkOrder])
    (sampleMaster true 1) 1 1 1 sampleWorkOrder (sampleOrder 1 "in_progress") sampleClient
    (by rfl) (by rfl) (by rfl) (by rfl) (by rfl) (by rfl) (by rfl) (by rfl)
    (by intro o ho; fin_cases ho; decide)

/-! Claim C7: complete on an already completed order. -/

/-- Claim C7: evaluating the code at the failing input.  Completing an order
that is already 'completed' is NOT a no-op: the master's load is decremented
again (here from 0 to -1), the run is reported as a success (true, the
"Заказ завершен" path) rather than a warning, and one order-ready notification
is dispatched. -/
theorem C7_code_bug :
    master_complete_order
        (sampleDB [sampleMaster true 0] [sampleOrder 1 "completed"] [sampleWorkOrder])
        (sampleMaster true 0) 1 =
      some (sampleDB [sampleMaster true (-1)] [sampleOrder 1 "completed"] [sampleWorkOrder],
            true, [Event.notifyOrderReady (some 1)]) ∧
      (sampleMaster true (-1)).current_orders ≠ (sampleMaster true 0).current_orders := by
  refine ⟨rfl, ?_⟩
  decide

/-! Claim C8: the load counter is not clamped at zero. -/

/-- Claim C8 counterexample: completing an in_progress order whose master is at
load 0 drives the stored load to -1; no clamp at 0 exists anywhere in the
source. -/
theorem C8_counterexample :
    ((master_complete_order
        (sampleDB [sampleMaster true 0] [sampleOrder 1 "in_progress"] [sampleWorkOrder])
        (sampleMaster true 0) 1).map (fun r => Master.get_by_id r.1 1)) =
      some (some (sampleMaster true (-1))) ∧
      (sampleMaster true (-1)).current_orders < 0 := by
  refine ⟨rfl, ?_⟩
  decide

/-- Claim C8 (amended): the decrement performed on completion is unconditional
(no clamp): a worker at load 0 is stored with load -1 — a negative value the
store accepts — while availability is still recomputed as load < 3 (hence
true). -/
theorem C8_no_clamp_negative_load (db : DB) (master : Master)
    (oid mid cid : Nat) (wo : WorkOrder) (order : Order) (c : Client)
    (hwo : WorkOrder.get_by_order_id db oid = some wo)
    (hwm : wo.master_id = master.id)
    (hmid : master.id = some mid)
    (hmm : Master.get_by_id db mid = some master)
    (h2 : Order.get_by_id db oid = some order)
    (h3 : order.client_id = some cid)
    (h4 : Client.get_by_id db cid = some c)
    (hnonew : ∀ o ∈ db.orders, o.status ≠ "new")
    (hzero : master.current_orders = 0) :
    ∃ db', master_complete_order db master oid =
        some (db', true, [Event.notifyOrderReady order.id]) ∧
      Master.get_by_id db' mid =
        some { master with current_orders := -1, is_available := true } ∧
      (-1 : Int) < 0 := by
  refine ⟨completeResult db master mid order oid,
          complete_no_pending hwo hwm hmid h2 h3 h4 hnonew, ?_, by decide⟩
  have hres : Master.get_by_id (completeResult db master mid order oid) mid = some { master with current_orders := master.current_orders - 1, is_available := decide (master.current_orders - 1 < 3) } := completeResult_master hmid hmm
  rw [hzero] at hres
  have h01 : (0 : Int) - 1 = -1 := by decide
  rw [h01] at hres
  have htrue : decide ((-1 : Int) < 3) = true := by decide
  rw [htrue] at hres
  exact hres

/-- Witness for C8_no_clamp_negative_load on a concrete store with the master
at load 0. -/
theorem C8_no_clamp_negative_load_witness :
    ∃ db', master_complete_order
        (sampleDB [sampleMaster true 0] [sampleOrder 1 "in_progress"] [sampleWorkOrder])
        (sampleMaster true 0) 1 =
        some (db', true, [Event.notifyOrderReady (sampleOrder 1 "in_progress").id]) ∧
      Master.get_by_id db' 1 =
        some { sampleMaster true 0 with current_orders := -1, is_available := true } ∧
      (-1 : Int) < 0 :=
  C8_no_clamp_negative_load
    (sampleDB [sampleMaster true 0] [sampleOrder 1 "in_progress"] [sampleWorkOrder])
    (sampleMaster true 0) 1 1 1 sampleWorkOrder (sampleOrder 1 "in_progress") sampleClient
    (by rfl) (by rfl) (by rfl) (by rfl) (by rfl) (by rfl) (by rfl)
    (by intro o ho; fin_cases ho; decide) (by rfl)

/-! Claim C6: the re-queue scan. -/

/-- Pending 'new' orders are unchanged by the completion step when every row
carrying the completed id was in_progress. -/
lemma get_by_status_new_completeResult {db : DB} {master : Master} {mid oid : Nat}
    {order : Order}
    (hid_status : ∀ x ∈ db.orders, x.id = some oid → x.status = "in_progress") :
    Order.get_by_status (completeResult db master mid order oid) "new" =
      Order.get_by_status db "new" := by
  have hA : ({ order with status := "completed" } : Order).status ≠ "new" := by
    intro h
    have hcontra : "completed" = "new" := h
    exact absurd hcontra (by decide)
  have hB : ∀ x ∈ db.orders, x.id = some oid → x.status ≠ "new" := by
    intro x hx hxid
    rw [hid_status x hx hxid]
    decide
  unfold Order.get_by_status completeResult
  dsimp only
  rw [filter_status_map_update hA hB]

/-- Claim C6 counterexample: cancelling an in_progress order frees no worker
and triggers no re-queue scan: with an available master and a pending 'new'
order, the cancellation leaves the pending order in 'new', creates no work
order and touches no master. -/
theorem C6_counterexample :
    (change_order_status
        (sampleDB [sampleMaster true 1] [sampleOrder 1 "in_progress", sampleOrder 2 "new"]
          [sampleWorkOrder]) 1 "cancelled").1.orders =
        [sampleOrder 1 "cancelled", sampleOrder 2 "new"] ∧
      (change_order_status
        (sampleDB [sampleMaster true 1] [sampleOrder 1 "in_progress", sampleOrder 2 "new"]
          [sampleWorkOrder]) 1 "cancelled").1.work_orders = [sampleWorkOrder] ∧
      (change_order_status
        (sampleDB [sampleMaster true 1] [sampleOrder 1 "in_progress", sampleOrder 2 "new"]
          [sampleWorkOrder]) 1 "cancelled").1.masters = [sampleMaster true 1] := by
  exact ⟨rfl, rfl, rfl⟩

/-- Claim C6 (amended): only the master-panel completion path re-queues.  When
a master completes an order there and the first pending 'new' order (ascending
id) can be assigned — its row and client resolve and the freed master is
available — the scan assigns exactly that first pending order (status
'assigned') and stops: every later pending order is left untouched.
Cancellation, which happens only through the status facade, runs no scan: all
pending 'new' orders are untouched by it. -/
theorem C6_requeue_single_slot (db : DB) (master : Master)
    (oid mid cid pid cid1 : Nat) (wo : WorkOrder) (order p1 : Order)
    (rest : List Order) (c c1 : Client)
    (hwo : WorkOrder.get_by_order_id db oid = some wo)
    (hwm : wo.master_id = master.id)
    (hmid : master.id = some mid)
    (hmm : Master.get_by_id db mid = some master)
    (h2 : Order.get_by_id db oid = some order)
    (h3 : order.client_id = some cid)
    (h4 : Client.get_by_id db cid = some c)
    (hid_status : ∀ x ∈ db.orders, x.id = some oid → x.status = "in_progress")
    (hmids : ∀ y ∈ db.masters, y.id.isSome)
    (hfree : master.current_orders - 1 < 3)
    (hpend : Order.get_by_status db "new" = p1 :: rest)
    (hp1id : p1.id = some pid)
    (hp1 : Order.get_by_id db pid = some p1)
    (hp1c : p1.client_id = some cid1)
    (hc1 : Client.get_by_id db cid1 = some c1)
    (hrest : ∀ q ∈ rest, q.id ≠ some pid) :
    ∃ (db' : DB) (m0 : Master),
      master_complete_order db master oid =
        some (db', true, [Event.notifyOrderReady order.id,
                          Event.notifyMasterAssigned pid m0.id]) ∧
      m0.is_available = true ∧
      Order.get_by_id db' pid = some { p1 with status := "assigned" } ∧
      Order.get_by_id db' oid = some { order with status := "completed" } ∧
      (∀ q ∈ rest, ∀ qid, q.id = some qid →
          Order.get_by_id db' qid = Order.get_by_id db qid) ∧
      (∀ q ∈ Order.get_by_status db "new", ∀ qid, q.id = some qid →
          Order.get_by_id (change_order_status db oid "cancelled").1 qid =
            Order.get_by_id db qid) := by
  have h2u := h2
  unfold Order.get_by_id at h2u
  have hbb := List.find?_some h2u
  have horder_id : order.id = some oid := by exact eq_of_beq hbb
  have hkC : ({ order with status := "completed" } : Order).id = some oid := horder_id
  have hmem : master ∈ db.masters := by
    have hmm' := hmm
    unfold Master.get_by_id at hmm'
    exact List.mem_of_find?_eq_some hmm'
  have hmem2 : ({ master with current_orders := master.current_orders - 1, is_available := decide (master.current_orders - 1 < 3) } : Master) ∈ (completeResult db master mid order oid).masters := by
    unfold completeResult
    dsimp only
    apply List.mem_map.mpr
    refine ⟨master, hmem, ?_⟩
    rw [hmid]
    rw [if_pos (beq_self_eq_true (some mid))]
  have havail2 : ({ master with current_orders := master.current_orders - 1, is_available := decide (master.current_orders - 1 < 3) } : Master).is_available = true :=
    decide_eq_true hfree
  have hne : Master.get_available_masters (completeResult db master mid order oid) ≠ [] :=
    available_ne_nil_of_mem hmem2 havail2
  cases hav : Master.get_available_masters (completeResult db master mid order oid) with
  | nil => exact absurd hav hne
  | cons m0 mss =>
      have hm0some : m0.id.isSome := by
        have hm0mem := (head_of_available hav).2
        unfold completeResult at hm0mem
        dsimp only at hm0mem
        rcases List.mem_map.mp hm0mem with ⟨y, hy, hgy⟩
        by_cases hyid : (y.id == some mid) = true
        · rw [if_pos hyid] at hgy
          rw [← hgy]
          have : ({ master with current_orders := master.current_orders - 1, is_available := decide (master.current_orders - 1 < 3) } : Master).id = some mid := hmid
          rw [this]
          rfl
        · rw [if_neg hyid] at hgy
          rw [← hgy]
          exact hmids y hy
      obtain ⟨mid0, hm0id⟩ := Option.isSome_iff_exists.mp hm0some
      have hp1pend : p1 ∈ Order.get_by_status db "new" := by
        rw [hpend]; exact List.mem_cons_self _ _
      have hp1row := mem_of_get_by_status hp1pend
      have hpid_ne : pid ≠ oid := by
        intro hcontra
        have hst : p1.status = "in_progress" :=
          hid_status p1 hp1row.1 (by rw [hp1id, hcontra])
        rw [hp1row.2] at hst
        exact absurd hst (by decide)
      have hd : Order.get_by_id (completeResult db master mid order oid) pid = some p1 := by
        unfold Order.get_by_id completeResult
        dsimp only
        rw [find?_map_update_ne Order.id ({ order with status := "completed" } : Order)
              oid pid hkC hpid_ne db.orders]
        unfold Order.get_by_id at hp1
        exact hp1
      have hc1db2 : Client.get_by_id (completeResult db master mid order oid) cid1 = some c1 := by
        unfold Client.get_by_id completeResult
        dsimp only
        unfold Client.get_by_id at hc1
        exact hc1
      have hassign := assign_found hav hm0id hd hp1c hc1db2
      have hscan : requeue_scan (completeResult db master mid order oid) (p1 :: rest) =
          some (assignResult (completeResult db master mid order oid) pid m0 p1,
                [Event.notifyMasterAssigned pid m0.id]) :=
        requeue_scan_head_success hp1id hassign
      have hrun : master_complete_order db master oid =
          some (assignResult (completeResult db master mid order oid) pid m0 p1, true,
                [Event.notifyOrderReady order.id, Event.notifyMasterAssigned pid m0.id]) := by
        rw [master_complete_found hwo hwm hmid h2 h3 h4,
            get_by_status_new_completeResult hid_status, hpend, hscan]
        rfl
      have hkA : ({ p1 with status := "assigned" } : Order).id = some pid := hp1id
      refine ⟨assignResult (completeResult db master mid order oid) pid m0 p1, m0, hrun,
              (head_of_available hav).1, ?_, ?_, ?_, ?_⟩
      · have hsd : ((completeResult db master mid order oid).orders.find?
            (fun x => x.id == some pid)).isSome := by
          have hd' := hd
          unfold Order.get_by_id at hd'
          rw [hd']; rfl
        unfold Order.get_by_id assignResult
        dsimp only
        exact find?_map_update_eq Order.id _ pid hkA _ hsd
      · unfold Order.get_by_id assignResult
        dsimp only
        rw [find?_map_update_ne Order.id ({ p1 with status := "assigned" } : Order)
              pid oid hkA (Ne.symm hpid_ne)]
        have hco : Order.get_by_id (completeResult db master mid order oid) oid = some { order with status := "completed" } := completeResult_order h2
        unfold Order.get_by_id at hco
        exact hco
      · intro q hq qid hqid
        have hqpend : q ∈ Order.get_by_status db "new" := by
          rw [hpend]; exact List.mem_cons_of_mem _ hq
        have hqrow := mem_of_get_by_status hqpend
        have hqoid : qid ≠ oid := by
          intro hcontra
          have hst : q.status = "in_progress" :=
            hid_status q hqrow.1 (by rw [hqid, hcontra])
          rw [hqrow.2] at hst
          exact absurd hst (by decide)
        have hqpid : qid ≠ pid := by
          intro hcontra
          exact hrest q hq (by rw [hqid, hcontra])
        unfold Order.get_by_id assignResult completeResult
        dsimp only
        rw [find?_map_update_ne Order.id ({ p1 with status := "assigned" } : Order)
              pid qid hkA hqpid]
        rw [find?_map_update_ne Order.id ({ order with status := "completed" } : Order)
              oid qid hkC hqoid]
      · intro q hq qid hqid
        have hqrow := mem_of_get_by_status hq
        have hqoid : qid ≠ oid := by
          intro hcontra
          have hst : q.status = "in_progress" :=
            hid_status q hqrow.1 (by rw [hqid, hcontra])
          rw [hqrow.2] at hst
          exact absurd hst (by decide)
        rw [change_order_status_found "cancelled" h2]
        unfold Order.get_by_id
        dsimp only
        rw [find?_map_update_ne Order.id ({ order with status := "cancelled" } : Order)
              oid qid horder_id hqoid]

/-- Witness for C6_requeue_single_slot: completing order 1 assigns pending
order 2 to the freed master and leaves pending order 3 in 'new'. -/
theorem C6_requeue_single_slot_witness :
    ∃ (db' : DB) (m0 : Master),
      master_complete_order
          (sampleDB [sampleMaster true 1]
            [sampleOrder 1 "in_progress", sampleOrder 2 "new", sampleOrder 3 "new"]
            [sampleWorkOrder])
          (sampleMaster true 1) 1 =
        some (db', true, [Event.notifyOrderReady (sampleOrder 1 "in_progress").id,
                          Event.notifyMasterAssigned 2 m0.id]) ∧
      m0.is_available = true ∧
      Order.get_by_id db' 2 = some { sampleOrder 2 "new" with status := "assigned" } ∧
      Order.get_by_id db' 1 = some { sampleOrder 1 "in_progress" with status := "completed" } ∧
      (∀ q ∈ [sampleOrder 3 "new"], ∀ qid, q.id = some qid →
          Order.get_by_id db' qid =
            Order.get_by_id
              (sampleDB [sampleMaster true 1]
                [sampleOrder 1 "in_progress", sampleOrder 2 "new", sampleOrder 3 "new"]
                [sampleWorkOrder]) qid) ∧
      (∀ q ∈ Order.get_by_status
            (sampleDB [sampleMaster true 1]
              [sampleOrder 1 "in_progress", sampleOrder 2 "new", sampleOrder 3 "new"]
              [sampleWorkOrder]) "new", ∀ qid, q.id = some qid →
          Order.get_by_id
              (change_order_status
                (sampleDB [sampleMaster true 1]
                  [sampleOrder 1 "in_progress", sampleOrder 2 "new", sampleOrder 3 "new"]
                  [sampleWorkOrder]) 1 "cancelled").1 qid =
            Order.get_by_id
              (sampleDB [sampleMaster true 1]
                [sampleOrder 1 "in_progress", sampleOrder 2 "new", sampleOrder 3 "new"]
                [sampleWorkOrder]) qid) :=
  C6_requeue_single_slot
    (sampleDB [sampleMaster true 1]
      [sampleOrder 1 "in_progress", sampleOrder 2 "new", sampleOrder 3 "new"]
      [sampleWorkOrder])
    (sampleMaster true 1) 1 1 1 2 1 sampleWorkOrder (sampleOrder 1 "in_progress")
    (sampleOrder 2 "new") [sampleOrder 3 "new"] sampleClient sampleClient
    (by rfl) (by rfl) (by rfl) (by rfl) (by rfl) (by rfl) (by rfl)
    (by decide) (by decide) (by decide) (by rfl) (by rfl) (by rfl) (by rfl) (by rfl)
    (by decide)

/-! Claim C10: build reuses an existing client found by phone number. -/

/-- Saving an order does not change its client reference. -/
lemma order_save_client_id (db : DB) (o : Order) :
    (Order.save db o).2.1.client_id = o.client_id := by
  cases h : o.id <;> simp [Order.save, h]

/-- Availability recomputation does not touch the client table. -/
@[simp] lemma master_update_availability_clients (db : DB) (m : Master) :
    (Master.update_availability db m).1.clients = db.clients := by
  unfold Master.update_availability
  exact master_save_clients db _

/-- The work-order stage of build does not touch the client table. -/
@[simp] lemma saveWorkOrderStage_clients (db : DB) (oid : Option Nat) :
    ∀ w : Option WorkOrder, (saveWorkOrderStage db oid w).1.clients = db.clients := by
  intro w
  cases w with
  | none => rfl
  | some wo =>
      unfold saveWorkOrderStage
      rcases hsv : WorkOrder.save db { wo with order_id := oid } with ⟨db1, wo1, ok⟩
      have hcl : db1.clients = db.clients := by
        have h := work_order_save_clients db { wo with order_id := oid }
        rw [hsv] at h
        exact h
      dsimp only
      rw [hsv]
      dsimp only
      cases hmi : wo1.master_id with
      | none => exact hcl
      | some mid =>
          cases hmg : Master.get_by_id db1 mid with
          | none => simp only [hmg]; exact hcl
          | some master =>
              simp only [hmg]
              rw [master_update_availability_clients]
              exact hcl

/-- Claim C10: when the builder's client is new (no id) and the store already
holds a client with the same phone number, build succeeds reusing that client:
the built order's client reference is the existing client's id, the returned
client is the existing row, and the client table is unchanged (no insert). -/
theorem C10_build_reuses_existing_client (db : DB) (b : BuilderState)
    (c existing : Client)
    (hc : b.client = some c)
    (hid : c.id = none)
    (hph : Client.get_by_phone db c.phone_number = some existing)
    (hitems : b.order_items ≠ []) :
    ∃ (db' : DB) (r : BuildResult),
      OrderBuilder.build db b = Except.ok (db', r) ∧
      r.order.client_id = existing.id ∧
      r.client = existing ∧
      db'.clients = db.clients := by
  unfold OrderBuilder.build
  rw [hc]
  simp only []
  rw [if_neg hitems, hid]
  simp only []
  rw [hph]
  simp only []
  cases hbo : b.order with
  | none =>
      rcases hsave : Order.save db { id := none, client_id := existing.id, data := "", status := "new" } with ⟨db2, order1, ok⟩
      have hocl : order1.client_id = existing.id := by
        have := order_save_client_id db { id := none, client_id := existing.id, data := "", status := "new" }
        rw [hsave] at this
        exact this
      have hc2 : db2.clients = db.clients := by
        have := order_save_clients db { id := none, client_id := existing.id, data := "", status := "new" }
        rw [hsave] at this
        exact this
      dsimp only
      rcases hsi : saveItems db2 order1.id b.order_items with ⟨db3, items1⟩
      have hc3 : db3.clients = db2.clients := by
        have h := saveItems_clients order1.id b.order_items db2
        rw [hsi] at h
        exact h
      dsimp only
      rcases hwo : saveWorkOrderStage db3 order1.id b.work_order with ⟨db4, wo1⟩
      have hc4 : db4.clients = db3.clients := by
        have h := saveWorkOrderStage_clients db3 order1.id b.work_order
        rw [hwo] at h
        exact h
      dsimp only
      refine ⟨db4, _, rfl, hocl, rfl, ?_⟩
      rw [hc4, hc3, hc2]
  | some o =>
      rcases hsave : Order.save db { o with client_id := existing.id } with ⟨db2, order1, ok⟩
      have hocl : order1.client_id = existing.id := by
        have := order_save_client_id db { o with client_id := existing.id }
        rw [hsave] at this
        exact this
      have hc2 : db2.clients = db.clients := by
        have := order_save_clients db { o with client_id := existing.id }
        rw [hsave] at this
        exact this
      dsimp only
      rcases hsi : saveItems db2 order1.id b.order_items with ⟨db3, items1⟩
      have hc3 : db3.clients = db2.clients := by
        have h := saveItems_clients order1.id b.order_items db2
        rw [hsi] at h
        exact h
      dsimp only
      rcases hwo : saveWorkOrderStage db3 order1.id b.work_order with ⟨db4, wo1⟩
      have hc4 : db4.clients = db3.clients := by
        have h := saveWorkOrderStage_clients db3 order1.id b.work_order
        rw [hwo] at h
        exact h
      dsimp only
      refine ⟨db4, _, rfl, hocl, rfl, ?_⟩
      rw [hc4, hc3, hc2]

/-- Witness for C10_build_reuses_existing_client: a new client with the sample
client's phone number reuses the stored row. -/
theorem C10_build_reuses_existing_client_witness :
    ∃ (db' : DB) (r : BuildResult),
      OrderBuilder.build (sampleDB [sampleMaster true 0] [] [])
          { order := none,
            client := some { id := none, name := "Olga", surname := "Orlova",
                             phone_number := "+79160000001", email := none },
            order_items := [{ id := none, order_id := none, product_id := some 5,
                              inform := none }],
            work_order := none } =
        Except.ok (db', r) ∧
      r.order.client_id = sampleClient.id ∧
      r.client = sampleClient ∧
      db'.clients = (sampleDB [sampleMaster true 0] [] []).clients :=
  C10_build_reuses_existing_client (sampleDB [sampleMaster true 0] [] [])
    { order := none,
      client := some { id := none, name := "Olga", surname := "Orlova",
                       phone_number := "+79160000001", email := none },
      order_items := [{ id := none, order_id := none, product_id := some 5,
                        inform := none }],
      work_order := none }
    { id := none, name := "Olga", surname := "Orlova",
      phone_number := "+79160000001", email := none }
    sampleClient (by rfl) (by rfl) (by rfl) (by decide)

end Jewelry
